import Mathlib

/-!
Verification of the EverMemoryArchive agent core (TypeScript sources):
the retry/backoff module, the ContextManager (token accounting and
message-history summarization) and the Agent step loop (tool dispatch).

The TypeScript code is shallowly embedded: classes become structures,
methods become functions, the mutable message history becomes explicit
state passing, and external collaborators (the tiktoken encoder,
`JSON.stringify`, the LLM client) become function parameters.
-/

/-! ## Data model (schema.ts, tools/base.ts) -/

/-- Message roles used by the agent core. -/
inductive Role
  | system
  | user
  | assistant
  | tool
deriving DecidableEq, Repr, Inhabited

/-- A JavaScript value as it appears in a tool-call argument object.
`undefined` is the value of a missing property access. -/
inductive JSValue
  | undefined
  | null
  | str (s : String)
  | num (n : Int)
  | boolean (b : Bool)
deriving DecidableEq, Repr, Inhabited

/-- One structured content block (`Record<string, unknown>`): an opaque
external value carrying whether `typeof block === "object" && block !== null`
holds and its `JSON.stringify` image. -/
structure Block where
  isObject : Bool
  json : String
deriving DecidableEq, Repr, Inhabited

/-- Message content: `string | Record<string, unknown>[]`. -/
inductive Content
  | str (s : String)
  | blocks (bs : List Block)
deriving DecidableEq, Repr, Inhabited

/-- A tool call issued by the model (schema.ts `ToolCall`).
`args` is the `function.arguments` object, as an ordered list of
string-keyed properties (JS objects preserve insertion order). -/
structure ToolCall where
  id : String
  type : String := "function"
  fname : String
  args : List (String × JSValue) := []
deriving DecidableEq, Repr, Inhabited

/-- A chat message (schema.ts `Message`); optional fields are `Option`,
`none` standing for `null`/absent. -/
structure Message where
  role : Role
  content : Content
  thinking : Option String := none
  tool_calls : Option (List ToolCall) := none
  tool_call_id : Option String := none
  name : Option String := none
deriving DecidableEq, Repr, Inhabited

/-- A JavaScript `Error` (name, message, optional stack). -/
structure JSError where
  name : String
  message : String
  stack : Option String := none
deriving DecidableEq, Repr, Inhabited

/-- Tool execution result (tools/base.ts `ToolResult`). -/
structure ToolResult where
  success : Bool
  content : String := ""
  error : Option String := none
deriving DecidableEq, Repr, Inhabited

/-- An LLM response (schema.ts `LLMResponse`); `usage` is the reported
`total_tokens` (the only usage field the core reads). -/
structure LLMResponse where
  content : String
  thinking : Option String := none
  tool_calls : Option (List ToolCall) := none
  finish_reason : String := ""
  usage : Option Nat := none
deriving DecidableEq, Repr, Inhabited

/-- A registered tool: its unique name, the declared property keys of its
`parameters.properties` JSON-schema object in declaration order (`none`
when no `properties` object is declared), and its `execute` behaviour on a
positional argument list (`Except.error` models a thrown exception). -/
structure Tool where
  name : String
  props : Option (List String)
  exec : List JSValue → Except JSError ToolResult

/-! ## Retry module (retry.ts) -/

/-- Retry configuration (retry.ts `RetryConfig`); delays are rationals
standing for JS numbers of seconds. `retryableExceptions` holds the
names of the configured retryable error classes. -/
structure RetryConfig where
  enabled : Bool := true
  maxRetries : Nat := 3
  initialDelay : ℚ := 1
  maxDelay : ℚ := 60
  exponentialBase : ℚ := 2
  retryableExceptions : List String := ["Error"]
deriving DecidableEq, Repr

/-- `RetryConfig.calculateDelay`: exponential backoff,
`min(initialDelay * exponentialBase ** attempt, maxDelay)`. -/
def calculateDelay (c : RetryConfig) (attempt : Nat) : ℚ :=
  min (c.initialDelay * c.exponentialBase ^ attempt) c.maxDelay

/-- The `RetryExhaustedError` raised when all attempts fail: carries the
last underlying error and the total attempt count. -/
structure RetryExhausted (E : Type) where
  lastException : E
  attempts : Nat
deriving DecidableEq, Repr

/-- Observable trace of one run of the `asyncRetry`-wrapped operation:
final outcome, number of invocations of the wrapped operation, the
backoff delays slept, and the `(error, attemptNumber)` pairs passed to
the `onRetry` callback. -/
structure RetryTrace (E A : Type) where
  result : Except (RetryExhausted E) A
  calls : Nat
  delays : List ℚ
  retryCallbacks : List (E × Nat)

deriving instance DecidableEq for Except

deriving instance DecidableEq for RetryTrace

/-- The attempt loop of `asyncRetry` (retry.ts), from attempt index
`attempt` on. `op i` is the outcome of the `i`-th invocation of the
wrapped operation (`Except.error` models a thrown exception). -/
def asyncRetryGo (c : RetryConfig) (op : Nat → Except E A) (attempt : Nat) :
    RetryTrace E A :=
  match op attempt with
  | .ok a => ⟨.ok a, 1, [], []⟩
  | .error e =>
    if h : attempt ≥ c.maxRetries then
      ⟨.error ⟨e, attempt + 1⟩, 1, [], []⟩
    else
      let d := calculateDelay c attempt
      let t := asyncRetryGo c op (attempt + 1)
      ⟨t.result, t.calls + 1, d :: t.delays, (e, attempt + 1) :: t.retryCallbacks⟩
termination_by c.maxRetries - attempt
decreasing_by omega

/-- A full run of an `asyncRetry`-wrapped operation (attempts start at 0). -/
def asyncRetryRun (c : RetryConfig) (op : Nat → Except E A) : RetryTrace E A :=
  asyncRetryGo c op 0

/-! ## Agent events (agent.ts `AgentEventDefs`) -/

/-- An error as carried by the `runFinished { ok: false }` payload. -/
inductive AgentError
  | retryExhausted (lastException : JSError) (attempts : Nat)
  | generic (e : JSError)
  | maxSteps (msg : String)
deriving DecidableEq, Repr

/-- Events emitted on the agent event bus, with the payload fields the
core computes (opaque collaborator payloads are dropped). -/
inductive Event
  | tokenEstimationFallbacked
  | summarizeMessagesStarted (localEstimatedTokens apiReportedTokens tokenLimit : Nat)
  | summarizeMessagesFinishedOk
      (msg : String) (oldTokens newTokens userMessageCount summaryCount : Nat)
  | summarizeMessagesFinishedErr (msg : String)
  | createSummaryFinishedOk (msg : String) (roundNum : Nat) (summaryText : String)
  | createSummaryFinishedErr (msg : String) (roundNum : Nat) (error : JSError)
  | stepStarted (stepNumber maxSteps : Nat)
  | runFinished (ok : Bool) (msg : String) (error : Option AgentError)
  | llmResponseReceived
  | toolCallStarted (toolCallId functionName : String)
  | toolCallFinished (ok : Bool) (toolCallId functionName : String)
deriving DecidableEq, Repr

/-! ## ContextManager state and appends (agent.ts `ContextManager`) -/

/-- The mutable fields of `ContextManager` that the core algorithms read
and write. -/
structure CMState where
  messages : List Message
  apiTotalTokens : Nat
  skipNextTokenCheck : Bool
  tokenLimit : Nat
deriving DecidableEq, Repr

/-- `ContextManager.addUserMessage`. -/
def addUserMessage (content : String) (st : CMState) : CMState :=
  { st with messages := st.messages ++ [{ role := .user, content := .str content }] }

/-- The assistant message built by `ContextManager.addAssistantMessage`. -/
def assistantMessageOf (r : LLMResponse) : Message :=
  { role := .assistant
    content := .str r.content
    thinking := r.thinking
    tool_calls := r.tool_calls }

/-- `ContextManager.addAssistantMessage`. -/
def addAssistantMessage (r : LLMResponse) (st : CMState) : CMState :=
  { st with messages := st.messages ++ [assistantMessageOf r] }

/-- The content of a tool message
(`result.success ? result.content : "Error: " + result.error`;
a `null` error interpolates as the string `"null"`). -/
def toolMessageContent (r : ToolResult) : String :=
  if r.success then r.content
  else "Error: " ++ (match r.error with | some e => e | none => "null")

/-- `ContextManager.addToolMessage`. -/
def addToolMessage (r : ToolResult) (toolCallId nm : String) (st : CMState) :
    CMState :=
  { st with
    messages := st.messages ++
      [{ role := .tool
         content := .str (toolMessageContent r)
         tool_call_id := some toolCallId
         name := some nm }] }

/-- `ContextManager.updateApiTokens`: record the provider-reported total
when a usage object is present. -/
def updateApiTokens (r : LLMResponse) (st : CMState) : CMState :=
  match r.usage with
  | some total => { st with apiTotalTokens := total }
  | none => st

/-! ## Token estimation (`estimateTokens`, `estimateTokensFallback`)

The tiktoken encoder and `JSON.stringify` are external collaborators;
they are passed in as functions `enc` (string to token count) and `stc`
(`JSON.stringify` of a `tool_calls` array). -/

/-- Tokens charged for a message's `content` field on the tiktoken path:
a string is encoded directly; in a block array only the object-typed
blocks are encoded (via their `JSON.stringify` image). -/
def contentTokens (enc : String → Nat) : Content → Nat
  | .str s => enc s
  | .blocks bs => (bs.map (fun b => if b.isObject then enc b.json else 0)).sum

/-- Tokens charged for one message on the tiktoken path: content plus
thinking (skipped when absent or empty, as `if (msg.thinking)` is a JS
truthiness test) plus stringified tool calls (an array is always truthy)
plus a fixed metadata overhead of 4. -/
def msgTokens (enc : String → Nat) (stc : List ToolCall → String) (m : Message) :
    Nat :=
  contentTokens enc m.content
    + (match m.thinking with
       | some t => if t.isEmpty then 0 else enc t
       | none => 0)
    + (match m.tool_calls with
       | some tcs => enc (stc tcs)
       | none => 0)
    + 4

/-- Characters charged for one message by `estimateTokensFallback`. -/
def msgChars (stc : List ToolCall → String) (m : Message) : Nat :=
  (match m.content with
   | .str s => s.length
   | .blocks bs => (bs.map (fun b => if b.isObject then b.json.length else 0)).sum)
    + (match m.thinking with
       | some t => if t.isEmpty then 0 else t.length
       | none => 0)
    + (match m.tool_calls with
       | some tcs => (stc tcs).length
       | none => 0)

/-- `ContextManager.estimateTokensFallback`: total characters divided by
2.5 and floored; `Math.floor(chars / 2.5)` is `2 * chars / 5` in integer
arithmetic. -/
def estimateTokensFallback (stc : List ToolCall → String) (msgs : List Message) :
    Nat :=
  2 * (msgs.map (msgChars stc)).sum / 5

/-- `ContextManager.estimateTokens`: the tiktoken path when the encoder is
available (`tiktokenOk`), otherwise the fallback path plus the
fallback-notification event. -/
def estimateTokens (tiktokenOk : Bool) (enc : String → Nat)
    (stc : List ToolCall → String) (msgs : List Message) : Nat × List Event :=
  if tiktokenOk then
    ((msgs.map (msgTokens enc stc)).sum, [])
  else
    (estimateTokensFallback stc msgs, [.tokenEstimationFallbacked])

/-! ## Summarization (`ContextManager.summarizeMessages`, `createSummary`)

The LLM client is a collaborator: it is passed in as
`llm : List Message → Except JSError String`, mapping the request message
list to the response's `content` (or a thrown error). `sb` is
`JSON.stringify` for a block-array message content. -/

/-- `messages.slice(a, b)` for `a ≤ b` (the only use sites). -/
def jsSlice (xs : List α) (a b : Nat) : List α :=
  (xs.take b).drop a

/-- Indices of the user messages after the system prompt, mirroring
`messages.map((msg, index) => ...).filter(msg.role === "user" && index > 0)
.map(index)`. -/
def userIndices (msgs : List Message) : List Nat :=
  ((msgs.enum.filter fun p => p.2.role == Role.user && decide (0 < p.1)).map
    Prod.fst)

/-- All indices of user messages in a list (helper for reasoning about
`userIndices`, which shifts these by the system-prompt offset). -/
def userIdxs : List Message → List Nat
  | [] => []
  | m :: rest =>
    (if m.role == Role.user then [0] else []) ++ (userIdxs rest).map (· + 1)

/-- The transcript line contributed by one message of a round
(`createSummary`'s loop body): assistant messages contribute their text
and called tool names, tool messages their returned content; user and
system messages contribute nothing. -/
def summaryPiece (sb : List Block → String) (m : Message) : String :=
  if m.role == Role.assistant then
    let contentText := match m.content with | .str s => s | .blocks bs => sb bs
    "Assistant: " ++ contentText ++ "\n"
      ++ (match m.tool_calls with
          | some tcs =>
            "  → Called tools: " ++ String.intercalate ", " (tcs.map (·.fname))
              ++ "\n"
          | none => "")
  else if m.role == Role.tool then
    let resultPreview := match m.content with | .str s => s | .blocks bs => sb bs
    "  ← Tool returned: " ++ resultPreview ++ "...\n"
  else ""

/-- The raw transcript `summaryContent` built by `createSummary` for one
round. -/
def summaryTranscript (sb : List Block → String) (msgs : List Message)
    (roundNum : Nat) : String :=
  "Round " ++ (toString roundNum ++ " execution process:\n\n"
    ++ String.join (msgs.map (summaryPiece sb)))

/-- The summarization prompt sent to the LLM (`summaryPrompt`). -/
def summaryPrompt (summaryContent : String) : String :=
  "Please provide a concise summary of the following Agent execution process:\n\n"
    ++ summaryContent
    ++ "\n\nRequirements:\n1. Focus on what tasks were completed and which tools were called\n2. Keep key execution results and important findings\n3. Be concise and clear, within 1000 words\n4. Use English\n5. Do not include \"user\" related content, only summarize the Agent's execution process"

/-- The two-message request `createSummary` sends to `llmClient.generate`. -/
def summaryRequest (prompt : String) : List Message :=
  [{ role := .system
     content := .str "You are an assistant skilled at summarizing Agent execution processes." },
   { role := .user, content := .str prompt }]

/-- `ContextManager.createSummary`: empty rounds yield the empty string;
otherwise the LLM is asked for a concise summary of the transcript and on
a thrown error the raw transcript itself is returned. Also returns the
emitted `createSummaryFinished` events. -/
def createSummary (llm : List Message → Except JSError String)
    (sb : List Block → String) (messages : List Message) (roundNum : Nat) :
    String × List Event :=
  if messages.length = 0 then ("", [])
  else
    let summaryContent := summaryTranscript sb messages roundNum
    match llm (summaryRequest (summaryPrompt summaryContent)) with
    | .ok summaryText =>
      (summaryText,
        [.createSummaryFinishedOk "Summary generation succeeded." roundNum
          summaryText])
    | .error e =>
      (summaryContent,
        [.createSummaryFinishedErr "Summary generation failed." roundNum e])

/-- The synthetic user-role message wrapping a round summary. -/
def summaryMessage (summaryText : String) : Message :=
  { role := .user
    content := .str ("[Assistant Execution Summary]\n\n" ++ summaryText) }

/-- The round loop of `summarizeMessages`: given the remaining user
indices and the 1-based round number, returns the rebuilt messages after
the system prompt, the emitted events, and the summary count. A round's
execution messages run to the next user index, or to the end of the list
for the last round; a non-empty round is summarized, and the summary
message is pushed only when the summary text is truthy (non-empty). -/
def buildRounds (llm : List Message → Except JSError String)
    (sb : List Block → String) (msgs : List Message) :
    List Nat → Nat → List Message × List Event × Nat
  | [], _ => ([], [], 0)
  | u :: rest, i =>
    let nextUserIdx := match rest with | [] => msgs.length | u' :: _ => u'
    let executionMessages := jsSlice msgs (u + 1) nextUserIdx
    let tail := buildRounds llm sb msgs rest (i + 1)
    if executionMessages.length > 0 then
      let cs := createSummary llm sb executionMessages i
      if cs.1 ≠ "" then
        (msgs.getD u default :: summaryMessage cs.1 :: tail.1,
          cs.2 ++ tail.2.1, tail.2.2 + 1)
      else
        (msgs.getD u default :: tail.1, cs.2 ++ tail.2.1, tail.2.2)
    else
      (msgs.getD u default :: tail.1, tail.2.1, tail.2.2)

/-- The body of `summarizeMessages` after the one-shot suppression-flag
check: evaluate the trigger, re-check the precondition, rebuild the
history round by round and set the suppression flag. `est` stands for
`this.estimateTokens()`. Returns the new state and the emitted events. -/
def summarizeCore (est : List Message → Nat)
    (llm : List Message → Except JSError String) (sb : List Block → String)
    (st : CMState) : CMState × List Event :=
  let estimatedTokens := est st.messages
  let shouldSummarize :=
    estimatedTokens > st.tokenLimit || st.apiTotalTokens > st.tokenLimit
  if !shouldSummarize then (st, [])
  else
    let started :=
      Event.summarizeMessagesStarted estimatedTokens st.apiTotalTokens
        st.tokenLimit
    let uIdx := userIndices st.messages
    if uIdx.length < 1 then
      (st, [started,
        .summarizeMessagesFinishedErr "Insufficient messages, cannot summarize."])
    else
      let br := buildRounds llm sb st.messages uIdx 1
      let newMessages := st.messages.getD 0 default :: br.1
      let st' :=
        { st with messages := newMessages, skipNextTokenCheck := true }
      let newTokens := est newMessages
      (st',
        started :: br.2.1 ++
          [.summarizeMessagesFinishedOk
            "Summary completed and API token count will update on next LLM call."
            estimatedTokens newTokens uIdx.length br.2.2])

/-- `ContextManager.summarizeMessages`: consume the one-shot suppression
flag if set (returning untouched history and no events), otherwise run
the trigger check and compaction. -/
def summarizeMessages (est : List Message → Nat)
    (llm : List Message → Except JSError String) (sb : List Block → String)
    (st : CMState) : CMState × List Event :=
  if st.skipNextTokenCheck then ({ st with skipNextTokenCheck := false }, [])
  else summarizeCore est llm sb st

/-- Modelled from the spec: the per-round shape of the rebuilt history as
amended — for each round, the user message, followed by one synthetic
user-role summary message exactly when the round's non-user tail is
non-empty and the generated summary text is non-empty. -/
def specBuild (llm : List Message → Except JSError String)
    (sb : List Block → String) (msgs : List Message) :
    List Nat → Nat → List Message
  | [], _ => []
  | u :: rest, i =>
    let stop := match rest with | [] => msgs.length | u' :: _ => u'
    let tail := jsSlice msgs (u + 1) stop
    let summaryText := (createSummary llm sb tail i).1
    (msgs.getD u default ::
        (if tail ≠ [] ∧ summaryText ≠ "" then [summaryMessage summaryText]
         else []))
      ++ specBuild llm sb msgs rest (i + 1)

/-! ## Tool dispatch and the Agent step (agent.ts `Agent.run`) -/

/-- Property access `callArgs[key]` on a JS argument object: the first
binding for the key, `undefined` when absent. -/
def jsIndex (args : List (String × JSValue)) (key : String) : JSValue :=
  match args.find? (fun p => p.1 == key) with
  | some p => p.2
  | none => .undefined

/-- The positional argument list `Agent.run` passes to `tool.execute`:
the argument object's values projected in the declared property-key
order, or `Object.values(callArgs)` when no `properties` object is
declared. -/
def positionalArgs (props : Option (List String))
    (callArgs : List (String × JSValue)) : List JSValue :=
  match props with
  | some keys => keys.map (fun k => jsIndex callArgs k)
  | none => callArgs.map (·.2)

/-- `this.contextManager.toolDict.get(name)`: the `Map` constructor keeps
the last entry for a duplicated key, so lookup finds the last tool with
the name. -/
def toolDictGet (tools : List Tool) (nm : String) : Option Tool :=
  tools.reverse.find? (fun t => t.name == nm)

/-- The `try`/`catch` around `tool.execute`: a thrown error is converted
into a failed `ToolResult` carrying the error's name, message and stack. -/
def execOutcomeToResult (outcome : Except JSError ToolResult) : ToolResult :=
  match outcome with
  | .ok r => r
  | .error e =>
    { success := false
      content := ""
      error := some ("Tool execution failed: " ++ e.name ++ ": " ++ e.message
        ++ "\n\nTraceback:\n" ++ e.stack.getD "") }

/-- Tool dispatch in `Agent.run`: an unknown name yields a synthetic
failed `ToolResult`; a resolved tool is executed on the projected
positional arguments with its exceptions caught. Total by construction. -/
def dispatchToolCall (tools : List Tool) (tc : ToolCall) : ToolResult :=
  match toolDictGet tools tc.fname with
  | none =>
    { success := false, content := "", error := some ("Unknown tool: " ++ tc.fname) }
  | some tool => execOutcomeToResult (tool.exec (positionalArgs tool.props tc.args))

/-- The tool-role message `Agent.run` appends for one tool call. -/
def toolMessageOf (tools : List Tool) (tc : ToolCall) : Message :=
  { role := .tool
    content := .str (toolMessageContent (dispatchToolCall tools tc))
    tool_call_id := some tc.id
    name := some tc.fname }

/-- The tool-call loop of one agent step: dispatch each call in order,
emit its start/finish events and append its tool-role message. -/
def execToolCalls (tools : List Tool) (st : CMState) :
    List ToolCall → CMState × List Event
  | [] => (st, [])
  | tc :: rest =>
    let result := dispatchToolCall tools tc
    let next := execToolCalls tools (addToolMessage result tc.id tc.fname st) rest
    (next.1,
      .toolCallStarted tc.id tc.fname
        :: .toolCallFinished result.success tc.id tc.fname :: next.2)

/-- Outcome of the `this.llm.generate` call in one agent step: a response,
a thrown `RetryExhaustedError`, or any other thrown error. -/
inductive LLMOutcome
  | ok (r : LLMResponse)
  | retryExhausted (lastException : JSError) (attempts : Nat)
  | genericError (e : JSError)
deriving Repr

/-- Whether the step loop of `Agent.run` goes on to the next step or the
run returns. -/
inductive StepControl
  | next
  | halt
deriving DecidableEq, Repr

/-- One iteration of the `Agent.run` while loop, from the LLM call on
(after summarization and the step-started event): handle the generate
outcome, append the assistant message, finish when there are no tool
calls, otherwise dispatch every tool call and continue. -/
def runStep (tools : List Tool) (st : CMState) (out : LLMOutcome) :
    CMState × List Event × StepControl :=
  match out with
  | .retryExhausted e attempts =>
    (st,
      [.runFinished false
        ("LLM call failed after " ++ toString attempts ++ " retries.")
        (some (.retryExhausted e attempts))],
      .halt)
  | .genericError e =>
    (st, [.runFinished false "LLM call failed." (some (.generic e))], .halt)
  | .ok response =>
    let st1 := addAssistantMessage response (updateApiTokens response st)
    match response.tool_calls with
    | none =>
      (st1, [.llmResponseReceived, .runFinished true response.content none],
        .halt)
    | some tcs =>
      if tcs.isEmpty then
        (st1, [.llmResponseReceived, .runFinished true response.content none],
          .halt)
      else
        let r := execToolCalls tools st1 tcs
        (r.1, .llmResponseReceived :: r.2, .next)

/-! ## Theorems -/

/-- C5: For every non-negative attempt index `i`, the retry delay equals
`min(initialDelay * exponentialBase^i, maxDelay)`; for
`initialDelay=1, exponentialBase=2, maxDelay=60` the delays for attempts
0..5 are 1, 2, 4, 8, 16, 32, and attempt 6 clamps to 60. -/
theorem retry_backoff_delay :
    (∀ (c : RetryConfig) (i : Nat),
      calculateDelay c i = min (c.initialDelay * c.exponentialBase ^ i) c.maxDelay)
    ∧ [0, 1, 2, 3, 4, 5].map (calculateDelay ⟨true, 3, 1, 60, 2, ["Error"]⟩)
        = [1, 2, 4, 8, 16, 32]
    ∧ calculateDelay ⟨true, 3, 1, 60, 2, ["Error"]⟩ 6 = 60 := by
  refine ⟨fun c i => rfl, ?_, ?_⟩ <;> simp [calculateDelay] <;> norm_num

/-- C9: token accounting is monotonic under append, on both the tiktoken
path and the character-heuristic fallback path of `estimateTokens`. -/
theorem estimate_tokens_monotone (enc : String → Nat)
    (stc : List ToolCall → String) (msgs : List Message) (m : Message) :
    (estimateTokens true enc stc msgs).1
        ≤ (estimateTokens true enc stc (msgs ++ [m])).1
    ∧ (estimateTokens false enc stc msgs).1
        ≤ (estimateTokens false enc stc (msgs ++ [m])).1 := by
  constructor
  · simp only [estimateTokens, if_pos, List.map_append, List.sum_append]
    exact Nat.le_add_right _ _
  · simp only [estimateTokens, estimateTokensFallback, if_neg, List.map_append,
      List.sum_append]
    exact Nat.div_le_div_right (by omega)

/-- Two retry configurations that agree on every field the attempt loop
reads produce identical traces; the loop never consults `enabled`. -/
theorem asyncRetryGo_congr {E A : Type} (c₁ c₂ : RetryConfig)
    (op : Nat → Except E A) (hm : c₁.maxRetries = c₂.maxRetries)
    (hi : c₁.initialDelay = c₂.initialDelay) (hx : c₁.maxDelay = c₂.maxDelay)
    (he : c₁.exponentialBase = c₂.exponentialBase) :
    ∀ (k attempt : Nat), c₁.maxRetries - attempt = k →
      asyncRetryGo c₁ op attempt = asyncRetryGo c₂ op attempt := by
  have hdelay : ∀ a, calculateDelay c₁ a = calculateDelay c₂ a := by
    intro a; rw [calculateDelay, calculateDelay, hi, hx, he]
  intro k
  induction k with
  | zero =>
    intro attempt hk
    rw [asyncRetryGo.eq_def]
    conv_rhs => rw [asyncRetryGo.eq_def]
    cases hop : op attempt with
    | ok a => rfl
    | error e =>
      have h₁ : attempt ≥ c₁.maxRetries := by omega
      have h₂ : attempt ≥ c₂.maxRetries := by omega
      simp [h₁, h₂]
  | succ k ih =>
    intro attempt hk
    rw [asyncRetryGo.eq_def]
    conv_rhs => rw [asyncRetryGo.eq_def]
    cases hop : op attempt with
    | ok a => rfl
    | error e =>
      have h₁ : ¬ attempt ≥ c₁.maxRetries := by omega
      have h₂ : ¬ attempt ≥ c₂.maxRetries := by omega
      simp only [h₁, h₂, dite_false, dif_neg, not_false_iff]
      rw [hdelay, ih (attempt + 1) (by omega)]

/-- C10: the behaviour of an `asyncRetry`-wrapped operation is identical
whether `enabled` is true or false — same attempts, same delays, same
result; the retry loop never consults the flag. -/
theorem retry_ignores_enabled (E A : Type) (c : RetryConfig) (b : Bool)
    (op : Nat → Except E A) :
    asyncRetryRun { c with enabled := b } op = asyncRetryRun c op :=
  asyncRetryGo_congr { c with enabled := b } c op rfl rfl rfl rfl
    (c.maxRetries - 0) 0 rfl

/-- When every attempt up to `maxRetries` fails, the attempt loop from
`attempt` on makes one call per remaining attempt and ends in a
`RetryExhaustedError` carrying the last error and the total attempt
count. -/
theorem asyncRetryGo_allFail {E A : Type} (c : RetryConfig)
    (op : Nat → Except E A) (errs : Nat → E)
    (hop : ∀ i, i ≤ c.maxRetries → op i = .error (errs i)) :
    ∀ (k attempt : Nat), c.maxRetries - attempt = k → attempt ≤ c.maxRetries →
      (asyncRetryGo c op attempt).result
          = .error ⟨errs c.maxRetries, c.maxRetries + 1⟩
      ∧ (asyncRetryGo c op attempt).calls = k + 1 := by
  intro k
  induction k with
  | zero =>
    intro attempt hk ha
    have heq : attempt = c.maxRetries := by omega
    rw [asyncRetryGo.eq_def, hop attempt ha]
    have h₁ : attempt ≥ c.maxRetries := by omega
    simp [h₁, heq]
  | succ k ih =>
    intro attempt hk ha
    rw [asyncRetryGo.eq_def, hop attempt ha]
    have h₁ : ¬ attempt ≥ c.maxRetries := by omega
    simp only [h₁, dite_false, dif_neg, not_false_iff]
    have := ih (attempt + 1) (by omega) (by omega)
    exact ⟨this.1, by simp [this.2]⟩

/-- C4: if the wrapped operation fails on every attempt, it is invoked
exactly `maxRetries + 1` times and the loop raises a
`RetryExhaustedError` carrying the last error and that attempt count;
when the error reaches the agent step, the run halts with a
`runFinished` event with `ok = false` reporting the attempt count. -/
theorem retry_exhaustion_reported (A : Type) (c : RetryConfig)
    (op : Nat → Except JSError A) (errs : Nat → JSError)
    (hop : ∀ i, i ≤ c.maxRetries → op i = .error (errs i)) :
    (asyncRetryRun c op).result
        = .error ⟨errs c.maxRetries, c.maxRetries + 1⟩
    ∧ (asyncRetryRun c op).calls = c.maxRetries + 1
    ∧ ∀ (tools : List Tool) (st : CMState),
        runStep tools st (.retryExhausted (errs c.maxRetries) (c.maxRetries + 1))
          = (st,
              [.runFinished false
                ("LLM call failed after " ++ toString (c.maxRetries + 1)
                  ++ " retries.")
                (some (.retryExhausted (errs c.maxRetries) (c.maxRetries + 1)))],
              .halt) := by
  have h := asyncRetryGo_allFail c op errs hop (c.maxRetries - 0) 0 rfl
    (Nat.zero_le _)
  refine ⟨h.1, ?_, fun tools st => rfl⟩
  rw [show asyncRetryRun c op = asyncRetryGo c op 0 from rfl, h.2]
  omega

/-- C4 witness: `maxRetries = 3` and four consecutive failures make
exactly 4 attempts and report attempt count 4. -/
theorem retry_exhaustion_reported_witness :
    (∀ i, i ≤ (⟨true, 3, 1, 60, 2, ["Error"]⟩ : RetryConfig).maxRetries →
      (fun _ => (.error ⟨"Error", "boom", none⟩ : Except JSError LLMResponse)) i
        = .error ((fun _ => (⟨"Error", "boom", none⟩ : JSError)) i))
    ∧ (asyncRetryRun ⟨true, 3, 1, 60, 2, ["Error"]⟩
        (fun _ => (.error ⟨"Error", "boom", none⟩ : Except JSError LLMResponse))).calls
        = 4
    ∧ (asyncRetryRun ⟨true, 3, 1, 60, 2, ["Error"]⟩
        (fun _ => (.error ⟨"Error", "boom", none⟩ : Except JSError LLMResponse))).result
        = .error ⟨⟨"Error", "boom", none⟩, 4⟩ := by
  have h := retry_exhaustion_reported LLMResponse ⟨true, 3, 1, 60, 2, ["Error"]⟩
    (fun _ => .error ⟨"Error", "boom", none⟩) (fun _ => ⟨"Error", "boom", none⟩)
    (fun _ _ => rfl)
  exact ⟨fun _ _ => rfl, h.2.1, h.1⟩

/-- Enumerated-and-filtered user positions past the system prompt: the
filter over `enumFrom n` with `n ≥ 1` keeps exactly the user positions,
shifted by `n`. -/
theorem enumFrom_user_positions (xs : List Message) : ∀ (n : Nat), 0 < n →
    ((List.enumFrom n xs).filter fun p =>
        p.2.role == Role.user && decide (0 < p.1)).map Prod.fst
      = (userIdxs xs).map (· + n) := by
  induction xs with
  | nil => intro n _; rfl
  | cons x xs ih =>
    intro n hn
    have hcomp : ((userIdxs xs).map (· + 1)).map (· + n)
        = (userIdxs xs).map (· + (n + 1)) := by
      rw [List.map_map]
      refine congrArg₂ _ ?_ rfl
      funext i
      simp only [Function.comp_apply]
      omega
    rw [List.enumFrom_cons, List.filter_cons]
    cases hx : x.role == Role.user with
    | true =>
      rw [if_pos (by simp [hx, hn]), List.map_cons, ih (n + 1) (by omega)]
      have hu : userIdxs (x :: xs) = 0 :: (userIdxs xs).map (· + 1) := by
        simp [userIdxs, hx]
      rw [hu, List.map_cons, hcomp]
      simp
    | false =>
      rw [if_neg (by simp [hx]), ih (n + 1) (by omega)]
      have hu : userIdxs (x :: xs) = (userIdxs xs).map (· + 1) := by
        simp [userIdxs, hx]
      rw [hu, hcomp]

/-- `userIndices` on a non-empty history: the user positions of the tail,
shifted past the head. -/
theorem userIndices_cons_eq (m : Message) (rest : List Message) :
    userIndices (m :: rest) = (userIdxs rest).map (· + 1) := by
  rw [userIndices, List.enum_cons, List.filter_cons,
    if_neg (by rw [Bool.and_comm]; exact Bool.false_ne_true)]
  exact enumFrom_user_positions rest 1 (by omega)

/-- The user-role messages of a list are exactly the messages found at
its user positions, in order. -/
theorem filter_user_eq_userIdxs (xs : List Message) :
    xs.filter (fun m => m.role == Role.user)
      = (userIdxs xs).map (fun i => xs.getD i default) := by
  induction xs with
  | nil => rfl
  | cons x xs ih =>
    rw [List.filter_cons]
    cases hx : x.role == Role.user with
    | true =>
      have hu : userIdxs (x :: xs) = 0 :: (userIdxs xs).map (· + 1) := by
        simp [userIdxs, hx]
      rw [if_pos (by simp [hx]), hu, List.map_cons, List.getD_cons_zero,
        List.map_map, ih]
      refine congrArg₂ _ rfl (congrArg₂ _ ?_ rfl)
      funext i
      simp only [Function.comp_apply]
      exact @List.getD_cons_succ Message x xs i default
    | false =>
      have hu : userIdxs (x :: xs) = (userIdxs xs).map (· + 1) := by
        simp [userIdxs, hx]
      rw [if_neg (by simp [hx]), hu, List.map_map, ih]
      refine congrArg₂ _ ?_ rfl
      funext i
      simp only [Function.comp_apply]
      exact @List.getD_cons_succ Message x xs i default

/-- A list whose tail holds no user-role message has no user indices. -/
theorem userIdxs_eq_nil (xs : List Message)
    (h : ∀ m ∈ xs, m.role ≠ Role.user) : userIdxs xs = [] := by
  induction xs with
  | nil => rfl
  | cons x xs ih =>
    have hx : (x.role == Role.user) = false := by
      have := h x (by simp)
      simp [this]
    have := ih (fun m hm => h m (by simp [hm]))
    simp [userIdxs, hx, this]

/-- Unfolding equation for one iteration of the round loop. -/
theorem buildRounds_cons_eq (llm : List Message → Except JSError String)
    (sb : List Block → String) (msgs : List Message) (u : Nat)
    (rest : List Nat) (i : Nat) :
    buildRounds llm sb msgs (u :: rest) i
      = (let nextUserIdx := match rest with | [] => msgs.length | u' :: _ => u'
         let executionMessages := jsSlice msgs (u + 1) nextUserIdx
         let tail := buildRounds llm sb msgs rest (i + 1)
         if executionMessages.length > 0 then
           let cs := createSummary llm sb executionMessages i
           if cs.1 ≠ "" then
             (msgs.getD u default :: summaryMessage cs.1 :: tail.1,
               cs.2 ++ tail.2.1, tail.2.2 + 1)
           else
             (msgs.getD u default :: tail.1, cs.2 ++ tail.2.1, tail.2.2)
         else
           (msgs.getD u default :: tail.1, tail.2.1, tail.2.2)) := rfl

/-- The round loop keeps every round's user message, in order: the
messages at the processed indices form a sublist of the rebuilt rounds. -/
theorem buildRounds_user_sublist (llm : List Message → Except JSError String)
    (sb : List Block → String) (msgs : List Message) :
    ∀ (idx : List Nat) (i : Nat),
      (idx.map (fun u => msgs.getD u default)).Sublist
        (buildRounds llm sb msgs idx i).1 := by
  intro idx
  induction idx with
  | nil => intro i; simp [buildRounds]
  | cons u rest ih =>
    intro i
    rw [List.map_cons, buildRounds_cons_eq]
    dsimp only
    split <;> (try split) <;>
      first
        | exact ((ih (i + 1)).cons _).cons₂ _
        | exact (ih (i + 1)).cons₂ _

/-- C2: summarization never removes a user-authored message — after
`summarizeMessages`, every message that had role `user` before the call is
still present verbatim, in the same relative order (the user messages
form a sublist of the new history). -/
theorem user_messages_preserved (est : List Message → Nat)
    (llm : List Message → Except JSError String) (sb : List Block → String)
    (st : CMState) :
    (st.messages.filter (fun m => m.role == Role.user)).Sublist
      (summarizeMessages est llm sb st).1.messages := by
  rw [summarizeMessages]
  split
  · exact List.filter_sublist _
  · rw [summarizeCore]
    dsimp only
    split
    · exact List.filter_sublist _
    · split
      · exact List.filter_sublist _
      · rename_i hlen
        cases hm : st.messages with
        | nil =>
          exfalso
          apply hlen
          rw [hm]
          simp [userIndices]
        | cons m0 rest =>
          dsimp only
          have hsub : (rest.filter (fun m => m.role == Role.user)).Sublist
              (buildRounds llm sb (m0 :: rest) (userIndices (m0 :: rest)) 1).1 := by
            rw [filter_user_eq_userIdxs, userIndices_cons_eq]
            have hb := buildRounds_user_sublist llm sb (m0 :: rest)
              ((userIdxs rest).map (· + 1)) 1
            rw [List.map_map] at hb
            have hfun : (fun i => rest.getD i default)
                = ((fun u => (m0 :: rest).getD u default) ∘ (· + 1)) := by
              funext i
              simp only [Function.comp_apply]
              exact (@List.getD_cons_succ Message m0 rest i default).symm
            rw [hfun]
            exact hb
          rw [List.filter_cons]
          cases hx : m0.role == Role.user with
          | true =>
            rw [if_pos (by simp [hx]), List.getD_cons_zero]
            exact hsub.cons₂ _
          | false =>
            rw [if_neg (by simp [hx]), List.getD_cons_zero]
            exact hsub.cons _

/-- C6: when the trigger condition holds but the history holds no
user-role message past the system prompt, `summarizeMessages` emits a
`summarizeMessagesFinished` with `ok = false` and leaves the message
list (indeed the whole state) unchanged. -/
theorem summarize_no_user_failure (est : List Message → Nat)
    (llm : List Message → Except JSError String) (sb : List Block → String)
    (st : CMState) (h1 : st.skipNextTokenCheck = false)
    (h2 : est st.messages > st.tokenLimit ∨ st.apiTotalTokens > st.tokenLimit)
    (h3 : ∀ m ∈ st.messages.tail, m.role ≠ Role.user) :
    summarizeMessages est llm sb st
      = (st,
        [.summarizeMessagesStarted (est st.messages) st.apiTotalTokens
          st.tokenLimit,
         .summarizeMessagesFinishedErr "Insufficient messages, cannot summarize."]) := by
  have htrig : (decide (est st.messages > st.tokenLimit)
      || decide (st.apiTotalTokens > st.tokenLimit)) = true := by
    rcases h2 with h | h <;> simp [h]
  have hIdx : userIndices st.messages = [] := by
    cases hm : st.messages with
    | nil => rfl
    | cons m0 rest =>
      rw [userIndices_cons_eq, userIdxs_eq_nil]
      · rfl
      · intro m hmem
        exact h3 m (by rw [hm]; exact hmem)
  rw [summarizeMessages, if_neg (by simp [h1]), summarizeCore]
  dsimp only
  rw [if_neg (by simp [htrig]), if_pos (by rw [hIdx]; simp)]

/-- C6 witness: a history holding only the system prompt, with the local
estimate over the limit, reports failure and keeps the history intact. -/
theorem summarize_no_user_failure_witness :
    ((100 : Nat) > 10 ∨ (0 : Nat) > 10)
    ∧ summarizeMessages (fun _ => 100) (fun _ => .ok "s") (fun _ => "")
        ⟨[{ role := .system, content := .str "S" }], 0, false, 10⟩
      = (⟨[{ role := .system, content := .str "S" }], 0, false, 10⟩,
        [.summarizeMessagesStarted 100 0 10,
         .summarizeMessagesFinishedErr "Insufficient messages, cannot summarize."]) :=
  ⟨Or.inl (by decide),
    summarize_no_user_failure (fun _ => 100) (fun _ => .ok "s") (fun _ => "")
      ⟨[{ role := .system, content := .str "S" }], 0, false, 10⟩ rfl
      (Or.inl (by decide)) (by intro m hm; simp at hm)⟩

/-- C7: a summarization pass that rebuilds the history sets the one-shot
suppression flag; the next `summarizeMessages` call clears the flag and
returns with no events and no mutation regardless of the token estimates;
and the call after that one runs the trigger-checking body again (the
flag is consumed on first check after being set). -/
theorem suppression_flag_oneshot (est : List Message → Nat)
    (llm : List Message → Except JSError String) (sb : List Block → String)
    (st : CMState) (h1 : st.skipNextTokenCheck = false)
    (h2 : est st.messages > st.tokenLimit ∨ st.apiTotalTokens > st.tokenLimit)
    (h3 : userIndices st.messages ≠ []) :
    (summarizeMessages est llm sb st).1.skipNextTokenCheck = true
    ∧ (∀ (est2 : List Message → Nat)
        (llm2 : List Message → Except JSError String)
        (sb2 : List Block → String),
        summarizeMessages est2 llm2 sb2 (summarizeMessages est llm sb st).1
          = ({ (summarizeMessages est llm sb st).1 with
                skipNextTokenCheck := false }, []))
    ∧ (∀ (est3 : List Message → Nat)
        (llm3 : List Message → Except JSError String)
        (sb3 : List Block → String),
        summarizeMessages est3 llm3 sb3
            { (summarizeMessages est llm sb st).1 with
                skipNextTokenCheck := false }
          = summarizeCore est3 llm3 sb3
            { (summarizeMessages est llm sb st).1 with
                skipNextTokenCheck := false }) := by
  have htrig : (decide (est st.messages > st.tokenLimit)
      || decide (st.apiTotalTokens > st.tokenLimit)) = true := by
    rcases h2 with h | h <;> simp [h]
  have hlen : ¬ (userIndices st.messages).length < 1 := by
    rw [Nat.lt_one_iff, List.length_eq_zero]
    exact h3
  have hflag : (summarizeMessages est llm sb st).1.skipNextTokenCheck = true := by
    rw [summarizeMessages, if_neg (by simp [h1]), summarizeCore]
    dsimp only
    rw [if_neg (by simp [htrig]), if_neg hlen]
  refine ⟨hflag, fun est2 llm2 sb2 => ?_, fun est3 llm3 sb3 => ?_⟩
  · generalize hY : (summarizeMessages est llm sb st).1 = Y at hflag ⊢
    rw [summarizeMessages, if_pos hflag]
  · generalize hY : (summarizeMessages est llm sb st).1 = Y
    rw [summarizeMessages, if_neg (by exact Bool.false_ne_true)]

/-- C7 witness: a three-message history over the provider-reported limit
rebuilds once, sets the flag, and the immediately following call is a
no-op that clears the flag. -/
theorem suppression_flag_oneshot_witness :
    ((0 : Nat) > 10 ∨ (100 : Nat) > 10)
    ∧ userIndices [{ role := .system, content := .str "S" },
        { role := .user, content := .str "hi" },
        { role := .assistant, content := .str "w" }] ≠ []
    ∧ (summarizeMessages (fun _ => 0) (fun _ => .ok "sum") (fun _ => "")
        ⟨[{ role := .system, content := .str "S" },
          { role := .user, content := .str "hi" },
          { role := .assistant, content := .str "w" }], 100, false, 10⟩).1.skipNextTokenCheck
        = true
    ∧ (∀ (est2 : List Message → Nat)
        (llm2 : List Message → Except JSError String)
        (sb2 : List Block → String),
        summarizeMessages est2 llm2 sb2
            (summarizeMessages (fun _ => 0) (fun _ => .ok "sum") (fun _ => "")
              ⟨[{ role := .system, content := .str "S" },
                { role := .user, content := .str "hi" },
                { role := .assistant, content := .str "w" }], 100, false, 10⟩).1
          = ({ (summarizeMessages (fun _ => 0) (fun _ => .ok "sum") (fun _ => "")
                ⟨[{ role := .system, content := .str "S" },
                  { role := .user, content := .str "hi" },
                  { role := .assistant, content := .str "w" }], 100, false, 10⟩).1 with
                skipNextTokenCheck := false }, [])) := by
  have h := suppression_flag_oneshot (fun _ => 0) (fun _ => .ok "sum") (fun _ => "")
    ⟨[{ role := .system, content := .str "S" },
      { role := .user, content := .str "hi" },
      { role := .assistant, content := .str "w" }], 100, false, 10⟩ rfl
    (Or.inr (by decide)) (by decide)
  exact ⟨Or.inr (by decide), by decide, h.1, h.2.1⟩

/-- Unfolding equation for one round of the spec-side description. -/
theorem specBuild_cons_eq (llm : List Message → Except JSError String)
    (sb : List Block → String) (msgs : List Message) (u : Nat)
    (rest : List Nat) (i : Nat) :
    specBuild llm sb msgs (u :: rest) i
      = (let stop := match rest with | [] => msgs.length | u' :: _ => u'
         let tail := jsSlice msgs (u + 1) stop
         let summaryText := (createSummary llm sb tail i).1
         (msgs.getD u default ::
             (if tail ≠ [] ∧ summaryText ≠ "" then [summaryMessage summaryText]
              else []))
           ++ specBuild llm sb msgs rest (i + 1)) := rfl

/-- The source round loop produces exactly the spec-side per-round shape:
user message, then one summary message iff the round's tail is non-empty
and the generated summary text is non-empty. -/
theorem buildRounds_fst_eq_specBuild (llm : List Message → Except JSError String)
    (sb : List Block → String) (msgs : List Message) :
    ∀ (idx : List Nat) (i : Nat),
      (buildRounds llm sb msgs idx i).1 = specBuild llm sb msgs idx i := by
  intro idx
  induction idx with
  | nil => intro i; rfl
  | cons u rest ih =>
    intro i
    rw [buildRounds_cons_eq, specBuild_cons_eq]
    cases rest with
    | nil =>
      dsimp only
      by_cases htail : (jsSlice msgs (u + 1) msgs.length).length > 0
      · by_cases hcs :
            (createSummary llm sb (jsSlice msgs (u + 1) msgs.length) i).1 = ""
        · rw [if_pos htail, if_neg (by simp [hcs]), if_neg (by simp [hcs]),
            ih (i + 1)]
          rfl
        · have hne : jsSlice msgs (u + 1) msgs.length ≠ [] := by
            intro hcon
            rw [hcon] at htail
            simp at htail
          rw [if_pos htail, if_pos hcs, if_pos ⟨hne, hcs⟩, ih (i + 1)]
          rfl
      · have hnil : jsSlice msgs (u + 1) msgs.length = [] := by
          cases h : jsSlice msgs (u + 1) msgs.length with
          | nil => rfl
          | cons a l => exact absurd (by rw [h]; simp) htail
        rw [if_neg htail, if_neg (by simp [hnil]), ih (i + 1)]
        rfl
    | cons u' rest' =>
      dsimp only
      by_cases htail : (jsSlice msgs (u + 1) u').length > 0
      · by_cases hcs :
            (createSummary llm sb (jsSlice msgs (u + 1) u') i).1 = ""
        · rw [if_pos htail, if_neg (by simp [hcs]), if_neg (by simp [hcs]),
            ih (i + 1)]
          rfl
        · have hne : jsSlice msgs (u + 1) u' ≠ [] := by
            intro hcon
            rw [hcon] at htail
            simp at htail
          rw [if_pos htail, if_pos hcs, if_pos ⟨hne, hcs⟩, ih (i + 1)]
          rfl
      · have hnil : jsSlice msgs (u + 1) u' = [] := by
          cases h : jsSlice msgs (u + 1) u' with
          | nil => rfl
          | cons a l => exact absurd (by rw [h]; simp) htail
        rw [if_neg htail, if_neg (by simp [hnil]), ih (i + 1)]
        rfl

/-- C1 (amended): when summarization triggers and a user message exists,
the rebuilt history is the system slot followed, for each round in order,
by the round's user message and then one synthetic user-role summary
message exactly when the round's non-user tail is non-empty AND the
generated summary text is non-empty; and when the LLM summary call fails,
the generated text is the raw transcript, which is never empty — so only
an LLM success with empty content can leave a non-empty round bare. -/
theorem rebuild_structure_amended (est : List Message → Nat)
    (llm : List Message → Except JSError String) (sb : List Block → String)
    (st : CMState) (h1 : st.skipNextTokenCheck = false)
    (h2 : est st.messages > st.tokenLimit ∨ st.apiTotalTokens > st.tokenLimit)
    (h3 : userIndices st.messages ≠ []) :
    (summarizeMessages est llm sb st).1.messages
      = st.messages.getD 0 default
          :: specBuild llm sb st.messages (userIndices st.messages) 1
    ∧ ∀ (tail : List Message) (i : Nat) (e : JSError), tail ≠ [] →
        llm (summaryRequest (summaryPrompt (summaryTranscript sb tail i)))
          = .error e →
        (createSummary llm sb tail i).1 = summaryTranscript sb tail i
        ∧ (createSummary llm sb tail i).1 ≠ "" := by
  have htrig : (decide (est st.messages > st.tokenLimit)
      || decide (st.apiTotalTokens > st.tokenLimit)) = true := by
    rcases h2 with h | h <;> simp [h]
  have hlen : ¬ (userIndices st.messages).length < 1 := by
    rw [Nat.lt_one_iff, List.length_eq_zero]
    exact h3
  constructor
  · rw [summarizeMessages, if_neg (by simp [h1]), summarizeCore]
    dsimp only
    rw [if_neg (by simp [htrig]), if_neg hlen]
    dsimp only
    rw [buildRounds_fst_eq_specBuild]
  · intro tail i e htne hllm
    have hlen0 : ¬ tail.length = 0 := by
      simpa [List.length_eq_zero] using htne
    have hne : summaryTranscript sb tail i ≠ "" := by
      intro hcon
      have hlenc := congrArg String.length hcon
      rw [summaryTranscript, String.length_append] at hlenc
      have h6 : ("Round " : String).length = 6 := rfl
      rw [h6] at hlenc
      have h0 : ("" : String).length = 0 := rfl
      omega
    rw [createSummary, if_neg hlen0]
    dsimp only
    rw [hllm]
    exact ⟨rfl, hne⟩

/-- C1 counterexample: with the trigger held and one user message
present, round 1's non-user tail is non-empty, yet when the LLM summary
call succeeds with empty content the round is rebuilt bare — its
execution messages are dropped with no summary message replacing them
(the truthiness guard discards an empty summary). -/
theorem rebuild_structure_counterexample :
    (⟨[{ role := .system, content := .str "S" },
       { role := .user, content := .str "hi" },
       { role := .assistant, content := .str "working" }], 0, false, 10⟩
      : CMState).skipNextTokenCheck = false
    ∧ (100 : Nat) > 10
    ∧ userIndices [{ role := .system, content := .str "S" },
        { role := .user, content := .str "hi" },
        { role := .assistant, content := .str "working" }] = [1]
    ∧ jsSlice [{ role := .system, content := .str "S" },
        { role := .user, content := .str "hi" },
        { role := .assistant, content := .str "working" }] 2 3 ≠ ([] : List Message)
    ∧ (summarizeMessages (fun _ => 100) (fun _ => .ok "") (fun _ => "")
        ⟨[{ role := .system, content := .str "S" },
          { role := .user, content := .str "hi" },
          { role := .assistant, content := .str "working" }], 0, false, 10⟩).1.messages
      = [{ role := .system, content := .str "S" },
         { role := .user, content := .str "hi" }] := by
  exact ⟨rfl, by decide, by decide, by decide, by decide⟩

/-- C1 witness for the amended statement: a failing LLM still rebuilds
the round with a summary message wrapping the raw transcript. -/
theorem rebuild_structure_amended_witness :
    ((100 : Nat) > 10 ∨ (0 : Nat) > 10)
    ∧ (summarizeMessages (fun _ => 100) (fun _ => .error ⟨"E", "x", none⟩)
        (fun _ => "")
        ⟨[{ role := .system, content := .str "S" },
          { role := .user, content := .str "hi" },
          { role := .assistant, content := .str "working" }], 0, false, 10⟩).1.messages
      = ([{ role := .system, content := .str "S" },
          { role := .user, content := .str "hi" },
          { role := .assistant, content := .str "working" }].getD 0 default)
          :: specBuild (fun _ => .error ⟨"E", "x", none⟩) (fun _ => "")
            [{ role := .system, content := .str "S" },
             { role := .user, content := .str "hi" },
             { role := .assistant, content := .str "working" }]
            (userIndices [{ role := .system, content := .str "S" },
              { role := .user, content := .str "hi" },
              { role := .assistant, content := .str "working" }]) 1 :=
  ⟨Or.inl (by decide),
    (rebuild_structure_amended (fun _ => 100) (fun _ => .error ⟨"E", "x", none⟩)
      (fun _ => "")
      ⟨[{ role := .system, content := .str "S" },
        { role := .user, content := .str "hi" },
        { role := .assistant, content := .str "working" }], 0, false, 10⟩ rfl
      (Or.inl (by decide)) (by decide)).1⟩

/-- `updateApiTokens` never touches the message history. -/
theorem updateApiTokens_messages (r : LLMResponse) (st : CMState) :
    (updateApiTokens r st).messages = st.messages := by
  cases hr : r.usage <;> simp [updateApiTokens, hr]

/-- The tool-call loop appends exactly one tool-role message per call, in
call order. -/
theorem execToolCalls_messages (tools : List Tool) :
    ∀ (tcs : List ToolCall) (st : CMState),
      (execToolCalls tools st tcs).1.messages
        = st.messages ++ tcs.map (toolMessageOf tools) := by
  intro tcs
  induction tcs with
  | nil => intro st; simp [execToolCalls]
  | cons tc rest ih =>
    intro st
    simp only [execToolCalls]
    rw [ih]
    simp [addToolMessage, toolMessageOf]

/-- C3: tool dispatch is total — an unknown tool name produces a failed
`ToolResult` whose appended tool-role message reads exactly
`Error: Unknown tool: <name>`, a throwing `execute` is caught and wrapped
with the error's name, message and stack, a tool-role message is appended
for every call, and the step loop continues rather than terminating. -/
theorem tool_dispatch_total (tools : List Tool) (st : CMState)
    (resp : LLMResponse) (tcs : List ToolCall)
    (h1 : resp.tool_calls = some tcs) (h2 : tcs ≠ []) :
    (runStep tools st (.ok resp)).2.2 = .next
    ∧ (runStep tools st (.ok resp)).1.messages
        = st.messages ++ assistantMessageOf resp :: tcs.map (toolMessageOf tools)
    ∧ (∀ tc : ToolCall, toolDictGet tools tc.fname = none →
        dispatchToolCall tools tc
            = ⟨false, "", some ("Unknown tool: " ++ tc.fname)⟩
        ∧ toolMessageOf tools tc
            = { role := .tool
                content := .str ("Error: Unknown tool: " ++ tc.fname)
                tool_call_id := some tc.id
                name := some tc.fname })
    ∧ (∀ (tc : ToolCall) (tool : Tool) (e : JSError),
        toolDictGet tools tc.fname = some tool →
        tool.exec (positionalArgs tool.props tc.args) = .error e →
        dispatchToolCall tools tc
          = ⟨false, "",
              some ("Tool execution failed: " ++ e.name ++ ": " ++ e.message
                ++ "\n\nTraceback:\n" ++ e.stack.getD "")⟩) := by
  have hE : tcs.isEmpty = false := by
    cases tcs with
    | nil => exact absurd rfl h2
    | cons a l => rfl
  have hassoc : ∀ s : String,
      "Error: " ++ ("Unknown tool: " ++ s) = "Error: Unknown tool: " ++ s := by
    intro s
    rw [← String.append_assoc]
    rfl
  have hrun : runStep tools st (.ok resp)
      = ((execToolCalls tools
            (addAssistantMessage resp (updateApiTokens resp st)) tcs).1,
          .llmResponseReceived
            :: (execToolCalls tools
                (addAssistantMessage resp (updateApiTokens resp st)) tcs).2,
          .next) := by
    simp only [runStep]
    rw [h1]
    dsimp only
    rw [if_neg (by simp [hE])]
  refine ⟨by rw [hrun], ?_, ?_, ?_⟩
  · rw [hrun]
    dsimp only
    rw [execToolCalls_messages]
    simp [addAssistantMessage, updateApiTokens_messages]
  · intro tc h
    refine ⟨?_, ?_⟩
    · simp only [dispatchToolCall]
      rw [h]
    · simp only [toolMessageOf, dispatchToolCall]
      rw [h, ← hassoc tc.fname]
      rfl
  · intro tc tool e hfind hexec
    simp only [dispatchToolCall]
    rw [hfind]
    dsimp only
    rw [hexec]
    rfl

/-- C3 witness: one tool call to the unregistered name "foo" yields a
tool-role message reading exactly `Error: Unknown tool: foo` and the loop
continues to the next step. -/
theorem tool_dispatch_total_witness :
    ((⟨"", none, some [⟨"id1", "function", "foo", []⟩], "", none⟩
        : LLMResponse).tool_calls = some [⟨"id1", "function", "foo", []⟩]
      ∧ ([(⟨"id1", "function", "foo", []⟩ : ToolCall)] ≠ []))
    ∧ (runStep [] ⟨[], 0, false, 0⟩
        (.ok ⟨"", none, some [⟨"id1", "function", "foo", []⟩], "", none⟩)).2.2
        = .next
    ∧ toolMessageOf [] ⟨"id1", "function", "foo", []⟩
        = { role := .tool
            content := .str "Error: Unknown tool: foo"
            tool_call_id := some "id1"
            name := some "foo" } := by
  have h := tool_dispatch_total [] ⟨[], 0, false, 0⟩
    ⟨"", none, some [⟨"id1", "function", "foo", []⟩], "", none⟩
    [⟨"id1", "function", "foo", []⟩] rfl (by decide)
  exact ⟨⟨rfl, by decide⟩, h.1,
    (h.2.2.1 ⟨"id1", "function", "foo", []⟩ rfl).2⟩

/-- C8: a resolved tool is executed on the tool-call's argument values
projected in the declared property-key order (a missing key projecting to
`undefined`), falling back to `Object.values` of the argument object when
no `properties` object is declared. -/
theorem positional_args_projection (tools : List Tool) (tc : ToolCall)
    (tool : Tool) (h : toolDictGet tools tc.fname = some tool) :
    dispatchToolCall tools tc
        = execOutcomeToResult (tool.exec (positionalArgs tool.props tc.args))
    ∧ (∀ keys, tool.props = some keys →
        positionalArgs tool.props tc.args = keys.map (jsIndex tc.args))
    ∧ (∀ k, tc.args.find? (fun p => p.1 == k) = none →
        jsIndex tc.args k = .undefined)
    ∧ (tool.props = none → positionalArgs tool.props tc.args = tc.args.map Prod.snd) := by
  refine ⟨?_, ?_, ?_, ?_⟩
  · simp only [dispatchToolCall]
    rw [h]
  · intro keys hk
    rw [hk]
    rfl
  · intro k hk
    simp only [jsIndex]
    rw [hk]
  · intro hp
    rw [hp]
    rfl

/-- Concrete tool and call for the C8 witness: schema declares keys in
the order `b`, `a`; the call supplies only `a`. -/
def schemaTool : Tool :=
  { name := "add", props := some ["b", "a"], exec := fun _ => .ok { success := true } }

/-- C8 witness: the projected positional list follows the declared key
order, with the missing key `b` projected to `undefined`. -/
theorem positional_args_projection_witness :
    toolDictGet [schemaTool] (⟨"1", "function", "add", [("a", .num 1)]⟩ : ToolCall).fname
        = some schemaTool
    ∧ positionalArgs schemaTool.props
        (⟨"1", "function", "add", [("a", .num 1)]⟩ : ToolCall).args
      = [.undefined, .num 1] := by
  have h := positional_args_projection [schemaTool]
    ⟨"1", "function", "add", [("a", .num 1)]⟩ schemaTool rfl
  refine ⟨rfl, ?_⟩
  rw [(h.2.1 ["b", "a"] rfl)]
  rfl
